import Mathlib

/-!
Verification of the view-mixin layer of the django-formset repository
(file `formset/views.py`).

The Python code is shallowly embedded below.  Python `dict`s with string
keys are modelled as association lists `List (String × α)` together with
`dictLookup` / `dictGet` / `dictUpdate` mirroring `d[k]` / `d.get(k, v)` /
`d.update({k: v})`.  Framework collaborators that the code merely calls
(the cookie signer, the storage URL resolvers, the `mkstemp` entropy, the
image decoder, the search capability of a widget) are abstracted as
explicit parameters; everything the repository's own code does with them
is translated line by line.  Fallible Python code (exceptions such as
`ValueError` from unpacking or `int()`, or the failing `assert`) is
modelled with `Except PyError`.
-/

set_option autoImplicit false

namespace Formset

/-- Models Python `d[k]` lookup in a dict represented as an association
list (first binding wins; dicts built by the code have unique keys). -/
def dictLookup {α : Type} (k : String) : List (String × α) → Option α
  | [] => none
  | p :: d => if p.1 = k then some p.2 else dictLookup k d

/-- Models Python `d.get(k, dflt)`. -/
def dictGet {α : Type} (d : List (String × α)) (k : String) (dflt : α) : α :=
  (dictLookup k d).getD dflt

/-- Models Python `d[k] = v` / `d.update({k: v})`: an existing binding for
`k` is overwritten in place keeping its position (the dicts built by the
code bind each key at most once), otherwise the new binding is appended
at the end, matching dict insertion order. -/
def dictUpdate {α : Type} (d : List (String × α)) (k : String) (v : α) : List (String × α) :=
  match d with
  | [] => [(k, v)]
  | p :: rest => if p.1 = k then (k, v) :: rest else p :: dictUpdate rest k v

/-- Models Python `d.update(u)` for a whole dict `u`. -/
def dictUpdateAll {α : Type} (d u : List (String × α)) : List (String × α) :=
  u.foldl (fun acc p => dictUpdate acc p.1 p.2) d

/-!  Forms and validation responses (shared by `FormViewMixin` and
`FormCollectionViewMixin`). -/

/-- Submitted data bound to one form: the JSON sub-object keyed by the
form's name.  JSON leaf values are simplified to strings; the handlers
never inspect them, they only pass them to the form. -/
abbrev FormData := List (String × String)

/-- Django `form.errors`: a mapping from field name to the list of error
messages for that field. -/
abbrev FieldErrors := List (String × List String)

/-- Models a Django form class as used by the handlers: `name` is the
optional `name` attribute read by `getattr(self.form_class, 'name',
'__default__')`, and `errorsOf` gives `form.errors` of an instance bound
to the given data.  Since the handlers always pass data (possibly `{}`),
the instance is bound, so Django's `form.is_valid()` is exactly
`errorsOf data = []`. -/
structure FormClass where
  name : Option String
  errorsOf : FormData → FieldErrors

/-- Models `form.is_valid()` for a form bound to `d`. -/
def formIsValid (fc : FormClass) (d : FormData) : Bool :=
  (fc.errorsOf d).isEmpty

/-- Models the two JSON responses produced by the validation handlers:
`JsonResponse({'success_url': ...})` with status 200, and
`JsonResponse(errors, status=422)`. -/
inductive ValidationResponse where
  | success (success_url : String)
  | invalid (errors : List (String × FieldErrors))
  deriving DecidableEq

/-- Embeds `FormViewMixin._handle_form_data` (views.py lines 126-132):
bind the form class to the sub-object keyed by its declared name (default
key `__default__`), return 200 with the success URL when valid, else a
422 body mapping the form name to `form.errors`. -/
def handleFormData (form_class : FormClass) (success_url : String)
    (form_data : List (String × FormData)) : ValidationResponse :=
  let form_name := form_class.name.getD "__default__"
  let form_errors := form_class.errorsOf (dictGet form_data form_name [])
  if form_errors.isEmpty then .success success_url
  else .invalid [(form_name, form_errors)]

/-- Loop body of `FormCollectionViewMixin._handle_form_data` (views.py
lines 209-213): re-instantiate the declared form on the sub-object keyed
by its name (missing key gives `{}`), and on failure clear the `is_valid`
flag and `update` the error response. -/
def collectionStep (form_data : List (String × FormData))
    (acc : Bool × List (String × FieldErrors)) (p : String × FormClass) :
    Bool × List (String × FieldErrors) :=
  if (p.2.errorsOf (dictGet form_data p.1 [])).isEmpty then acc
  else (false, dictUpdate acc.2 p.1 (p.2.errorsOf (dictGet form_data p.1 [])))

/-- Embeds `FormCollectionViewMixin._handle_form_data` (views.py lines
206-217). -/
def handleFormDataCollection (declared_forms : List (String × FormClass))
    (success_url : String) (form_data : List (String × FormData)) : ValidationResponse :=
  let r := declared_forms.foldl (collectionStep form_data) (true, [])
  if r.1 then .success success_url else .invalid r.2

/-- Specification-side description of the 422 body the collection handler
builds: one entry per invalid declared form, in declaration order. -/
def collectionErrors (declared_forms : List (String × FormClass))
    (form_data : List (String × FormData)) : List (String × FieldErrors) :=
  declared_forms.filterMap (fun p =>
    if (p.2.errorsOf (dictGet form_data p.1 [])).isEmpty then none
    else some (p.1, p.2.errorsOf (dictGet form_data p.1 [])))

/-!  The `FormsetViewMeta` metaclass (views.py lines 144-171). -/

/-- Value of one attribute in a class body, as far as the metaclass cares:
a `BaseForm` instance, the `None` placeholder, or anything else. -/
inductive AttrValue (F : Type) where
  | form (f : F)
  | pynone
  | other
  deriving DecidableEq

/-- One class on the method-resolution order, reduced to the two pieces
`FormsetViewMeta.__new__` reads from it: the value of its
`declared_forms` attribute (empty when the attribute is missing, which
makes the `hasattr` guard a no-op) and the attributes of its `__dict__`
bound to `None` (other `__dict__` values never pass the `value is None`
test, so they are irrelevant to the walk). -/
structure MroClass (F : Type) where
  declared_forms : List (String × F)
  none_attrs : List String

/-- Embeds the first phase of `FormsetViewMeta.__new__` (views.py lines
148-153): pull every `BaseForm`-valued attribute out of `attrs` into the
new class's own `declared_forms`; `None`-valued attributes stay in the
class `__dict__`. -/
def classFromAttrs {F : Type} (attrs : List (String × AttrValue F)) : MroClass F :=
  { declared_forms := attrs.filterMap (fun p =>
      match p.2 with
      | .form f => some (p.1, f)
      | _ => none)
    none_attrs := attrs.filterMap (fun p =>
      match p.2 with
      | .pynone => some p.1
      | _ => none) }

/-- Embeds the shadowing step (views.py lines 165-167): `if value is None
and attr in declared_forms: declared_forms.pop(attr)`. -/
def removeNoneAttr {F : Type} (d : List (String × F)) (attr : String) : List (String × F) :=
  if (dictLookup attr d).isSome then d.filter (fun p => p.1 ≠ attr) else d

/-- Embeds one iteration of the MRO walk (views.py lines 159-167):
`declared_forms.update(base.declared_forms)` followed by the `None`
shadowing pass over `base.__dict__`. -/
def processBase {F : Type} (declared : List (String × F)) (base : MroClass F) :
    List (String × F) :=
  base.none_attrs.foldl removeNoneAttr (dictUpdateAll declared base.declared_forms)

/-- Embeds the MRO walk of `FormsetViewMeta.__new__` (views.py lines
158-169) over `reversed(new_class.__mro__)`, base-most class first. -/
def collectDeclaredForms {F : Type} (mro_rev : List (MroClass F)) : List (String × F) :=
  mro_rev.foldl processBase []

/-- Embeds the whole of `FormsetViewMeta.__new__` for a class created
with body `attrs` whose reversed MRO of proper bases is `base_mro_rev`:
the new class itself is the last element of the reversed MRO, and at walk
time its `declared_forms` attribute holds exactly its own forms collected
from `attrs`. -/
def newClassDeclaredForms {F : Type} (base_mro_rev : List (MroClass F))
    (attrs : List (String × AttrValue F)) : List (String × F) :=
  collectDeclaredForms (base_mro_rev ++ [classFromAttrs attrs])

/-!  The selectize option-search handler (views.py lines 24-38). -/

/-- One record of the queryset backing a searchable field.  `id` models
the primary key (the default `to_field_name` is `'pk'`), `label` models
`str(item)`. -/
structure Record where
  id : Nat
  label : String
  deriving DecidableEq

/-- Insertion step for sorting by descending `id`. -/
def insertDescById (r : Record) : List Record → List Record
  | [] => [r]
  | x :: xs => if x.id ≤ r.id then r :: x :: xs else x :: insertDescById r xs

/-- Models `order_by('-id')`: sorts records by descending `id`. -/
def sortDescById (l : List Record) : List Record :=
  l.foldr insertDescById []

/-- One entry of the `items` list of the search response. -/
structure SelectItem where
  id : Nat
  label : String
  deriving DecidableEq

/-- Body of the JSON response of `_fetch_options`. -/
structure OptionsData where
  query : String
  count : Nat
  total_count : Nat
  items : List SelectItem
  deriving DecidableEq

/-- Embeds `SelectizeResponseMixin._fetch_options` (views.py lines
24-38).  `search` abstracts `field.widget.search(query)` as the predicate
that filters the widget's backing queryset; `max_prefetch_choices` is the
widget's configured cap.  `filtered_qs` is the *sliced* queryset, so both
`count` and `items` are computed from it, while `total_count` counts the
full unfiltered queryset. -/
def fetchOptions (queryset : List Record) (search : String → Record → Bool)
    (max_prefetch_choices : Nat) (query : String) : OptionsData :=
  let filtered_qs := (sortDescById (queryset.filter (search query))).take max_prefetch_choices
  { query := query
    count := filtered_qs.length
    total_count := queryset.length
    items := filtered_qs.map (fun item => { id := item.id, label := item.label }) }

/-!  The file-upload handler (views.py lines 41-117). -/

/-- Python exceptions that can escape the embedded code paths. -/
inductive PyError where
  | valueError
  | assertionError
  | zeroDivisionError
  deriving DecidableEq

/-- Models `staticfiles_storage.url` as an injective prefix map. -/
def staticUrl (path : String) : String := "/static/" ++ path

/-- Models `default_storage.url` on a storage-relative path. -/
def mediaUrl (path : String) : String := "/media/" ++ path

/-- Splitting helper for `pySplit` over explicit character lists. -/
def splitOnChar (sep : Char) : List Char → List (List Char)
  | [] => [[]]
  | c :: cs =>
    match splitOnChar sep cs with
    | [] => [[]]
    | g :: gs => if c = sep then [] :: g :: gs else (c :: g) :: gs

/-- Models Python `s.split(sep)` for a one-character separator, as used
by `content_type.split('/')`. -/
def pySplit (sep : Char) (s : String) : List String :=
  (splitOnChar sep s.toList).map (fun g => String.mk g)

/-- Index of the last occurrence of `c`, scanning with offset `i`. -/
def lastIdxOfAux (c : Char) : List Char → Nat → Option Nat
  | [], _ => none
  | x :: xs, i =>
    match lastIdxOfAux c xs (i + 1) with
    | some j => some j
    | none => if x = c then some i else none

/-- Index of the last occurrence of `c` in `cs`. -/
def lastIdxOf (c : Char) (cs : List Char) : Option Nat :=
  lastIdxOfAux c cs 0

/-- Models `os.path.splitext`: splits at the last dot of the final path
component, except when every character between the start of that
component and that dot is itself a dot (so dotfiles such as `.bashrc`
keep no extension). -/
def pySplitext (p : String) : String × String :=
  let cs := p.toList
  let start := match lastIdxOf '/' cs with
    | some i => i + 1
    | none => 0
  match lastIdxOf '.' cs with
  | some d =>
    if start ≤ d ∧ ((cs.drop start).take (d - start)).any (fun ch => ch ≠ '.') then
      (String.mk (cs.take d), String.mk (cs.drop d))
    else (p, "")
  | none => (p, "")

/-- Models Python `int(s)` on a string: optional surrounding whitespace,
optional sign, then a non-empty digit run; anything else raises
`ValueError`, modelled as `none`.  (Digit-group underscores are not
modelled.) -/
def pyInt (s : String) : Option Int :=
  let cs := s.toList.dropWhile (fun ch => ch.isWhitespace)
  let cs := (cs.reverse.dropWhile (fun ch => ch.isWhitespace)).reverse
  match cs with
  | [] => none
  | c :: rest =>
    let sd : Int × List Char :=
      if c = '-' then (-1, rest) else if c = '+' then (1, rest) else (1, c :: rest)
    if sd.2 ≠ [] ∧ sd.2.all (fun ch => ch.isDigit) then
      some (sd.1 * Int.ofNat (sd.2.foldl (fun acc ch => acc * 10 + (ch.toNat - '0'.toNat)) 0))
    else none

/-- Models Python `round(num / den)` for exact rational `num / den` with
`den > 0`: round half to even. -/
def pyRoundDiv (num den : Int) : Int :=
  let q := num.fdiv den
  let r := num.fmod den
  if 2 * r < den then q
  else if 2 * r > den then q + 1
  else if q % 2 = 0 then q else q + 1

/-- Class-level configuration attributes of `FileUploadMixin`. -/
structure UploadConfig where
  filename_max_length : Nat
  thumbnail_max_height : Nat
  thumbnail_max_width : Nat

/-- Default values of the `FileUploadMixin` class attributes
(views.py lines 43-45). -/
def defaultUploadConfig : UploadConfig :=
  { filename_max_length := 50, thumbnail_max_height := 200, thumbnail_max_width := 400 }

/-- Request-scoped collaborators of the upload handler: `sign` models
`get_cookie_signer(salt='formset').sign`; `temp_rand` models the random
component that `tempfile.mkstemp` inserts between the supplied prefix and
suffix; `image_open` models `PIL.Image.open` on the stored temp file,
giving `(width, height)` on success and `none` when opening or decoding
raises. -/
structure UploadEnv where
  sign : String → String
  temp_rand : String
  image_open : Option (Nat × Nat)

/-- Models the fields of `django.core.files.uploadedfile.UploadedFile`
read by the handler.  `size` is the size the upload framework declared;
`chunks` models `file_obj.chunks()`, whose byte counts are what actually
reaches the temp file, so the stored size is the sum of the chunk
lengths. -/
structure UploadedFile where
  name : String
  size : Nat
  content_type : String
  content_type_extra : List (String × String)
  chunks : List (List Nat)

/-- The `file_handle` dict returned as JSON (views.py lines 81-89). -/
structure FileHandle where
  upload_temp_name : String
  content_type : String
  content_type_extra : List (String × String)
  name : String
  download_url : String
  thumbnail_url : String
  size : Nat
  deriving DecidableEq

/-- Responses of `_receive_uploaded_file`: `HttpResponseBadRequest` (400)
or `JsonResponse(file_handle)` (200). -/
inductive UploadResponse where
  | badRequest (msg : String)
  | json (h : FileHandle)
  deriving DecidableEq

/-- Models line 100 of views.py, `height = int(image_height) if
image_height else self.thumbnail_max_height`, as the outcome of the
unprotected `int` conversion: `none` when `int(image_height)` raises
`ValueError`. -/
def requestedHeight (cfg : UploadConfig) (image_height : String) : Option Int :=
  if image_height ≠ "" then pyInt image_height
  else some (Int.ofNat cfg.thumbnail_max_height)

/-- Models lines 101-102 of views.py: the proportional width
`int(round(image.width * height / image.height))` and the clamping of
both dimensions to the configured maxima, for an image of size
`w0 x h0` and requested height `hreq`. -/
def fitSize (cfg : UploadConfig) (w0 h0 : Nat) (hreq : Int) : Int × Int :=
  (min (pyRoundDiv (Int.ofNat w0 * hreq) (Int.ofNat h0)) (Int.ofNat cfg.thumbnail_max_width),
   min hreq (Int.ofNat cfg.thumbnail_max_height))

/-- Embeds `FileUploadMixin._thumbnail_image` (views.py lines 92-109).
The `try` block covers only the import and `Image.open`; on any failure
there the generic broken-image icon URL is returned.  Everything in the
`else` branch runs unprotected, so the following exceptions escape the
method: `ValueError` when a non-empty `image_height` fails the `int`
conversion (line 100); `ZeroDivisionError` when the opened image has
height 0 (the division on line 101) or when the clamped target height is
0 (`ImageOps.fit` computes `size[0] / size[1]` before cropping);
`ValueError` from the resize inside `ImageOps.fit` when the computed
width is non-positive or the clamped height is negative (Pillow rejects
non-positive target dimensions).  With both target dimensions positive
the fit succeeds and the thumbnail is saved next to the original with a
`_WxH` suffix; `thumb.save` itself is modelled as succeeding (the temp
directory exists; filesystem failures are outside the model).  Paths are
modelled storage-relative, which commutes with the code's absolute-path
`splitext` and final `relpath` since `splitext` only inspects the final
path component. -/
def thumbnailImage (cfg : UploadConfig) (image_open : Option (Nat × Nat))
    (image_path : String) (image_height : String) : Except PyError String :=
  match image_open with
  | none => .ok (staticUrl "formset/icons/file-picture.svg")
  | some wh =>
    match requestedHeight cfg image_height with
    | none => .error .valueError
    | some hreq =>
      if wh.2 = 0 then .error .zeroDivisionError
      else
        let ws := fitSize cfg wh.1 wh.2 hreq
        if ws.2 = 0 then .error .zeroDivisionError
        else if ws.1 ≤ 0 ∨ ws.2 < 0 then .error .valueError
        else
          let pe := pySplitext image_path
          .ok (mediaUrl (pe.1 ++ "_" ++ toString ws.1 ++ "x" ++ toString ws.2 ++ pe.2))

/-- Embeds `FileUploadMixin._file_icon_url` (views.py lines 111-117).
The leading `content_type.split('/')` two-name unpacking raises
`ValueError` unless the string holds exactly one slash. -/
def fileIconUrl (content_type : String) : Except PyError String :=
  match pySplit '/' content_type with
  | [mime_type, sub_type] =>
    if mime_type = "audio" ∨ mime_type = "font" ∨ mime_type = "video" then
      .ok (staticUrl ("formset/icons/file-" ++ mime_type ++ ".svg"))
    else if mime_type = "application" ∧ (sub_type = "zip" ∨ sub_type = "pdf") then
      .ok (staticUrl ("formset/icons/file-" ++ sub_type ++ ".svg"))
    else .ok (staticUrl "formset/icons/file-unknown.svg")
  | _ => .error .valueError

/-- Models the storage-relative path of the temp copy made by
`_receive_uploaded_file` (views.py lines 63-68): `tempfile.mkstemp` under
`upload_temp/` with prefix `<prefix>.`, random part `temp_rand` and the
original extension as suffix, followed by `os.path.relpath` against the
storage location. -/
def tempRelativePath (env : UploadEnv) (file_obj : UploadedFile) : String :=
  "upload_temp/" ++ (pySplitext file_obj.name).1 ++ "." ++ env.temp_rand
    ++ (pySplitext file_obj.name).2

/-- Embeds `FileUploadMixin._receive_uploaded_file` (views.py lines
52-90) in source order: the falsiness check on the uploaded file (Django
`File.__bool__` is `bool(self.name)`), the copy into the temp path (so
the stored byte count is the sum of the chunk lengths), the
`assert default_storage.size(...) == file_obj.size` integrity check, the
two-name content-type unpacking, the thumbnail/icon branch, and the final
`file_handle` JSON with the signed relative path and the display name
truncated to `filename_max_length`. -/
def receiveUploadedFile (env : UploadEnv) (cfg : UploadConfig)
    (file_obj : UploadedFile) (image_height : String) : Except PyError UploadResponse :=
  if file_obj.name = "" then
    .ok (.badRequest ("File upload failed for \x27" ++ file_obj.name ++ "\x27."))
  else
    let relative_path := tempRelativePath env file_obj
    if (file_obj.chunks.map List.length).sum = file_obj.size then
      let download_url := mediaUrl relative_path
      match pySplit '/' file_obj.content_type with
      | [mime_type, sub_type] =>
        let thumb_res :=
          if mime_type = "image" then
            if sub_type = "svg+xml" then Except.ok download_url
            else thumbnailImage cfg env.image_open relative_path image_height
          else fileIconUrl file_obj.content_type
        match thumb_res with
        | .error e => .error e
        | .ok thumbnail_url =>
          .ok (.json
            { upload_temp_name := env.sign relative_path
              content_type := file_obj.content_type
              content_type_extra := file_obj.content_type_extra
              name := String.mk (file_obj.name.toList.take cfg.filename_max_length)
              download_url := download_url
              thumbnail_url := thumbnail_url
              size := file_obj.size })
      | _ => .error .valueError
    else .error .assertionError

/-- Projects the signed temp name out of an upload outcome. -/
def responseTempName : Except PyError UploadResponse → Option String
  | .ok (.json h) => some h.upload_temp_name
  | _ => none

/-!  Concrete sample data used to instantiate the theorems below. -/

/-- Sample form that requires a field `f`. -/
def demoFormA : FormClass :=
  ⟨some "A", fun d => if (dictLookup "f" d).isSome then [] else [("f", ["required"])]⟩

/-- Sample form that accepts anything. -/
def demoFormB : FormClass := ⟨some "B", fun _ => []⟩

/-- Sample form collection with forms `A` and `B`. -/
def demoDeclaredForms : List (String × FormClass) := [("A", demoFormA), ("B", demoFormB)]

/-- Sample collection POST body: `A`'s sub-object is missing, `B`'s is
present and valid. -/
def demoCollectionBody : List (String × FormData) := [("B", [("g", "1")])]

/-- Sample reversed MRO of base classes for the metaclass: one base
declaring forms `a` and `c`. -/
def demoBaseMro : List (MroClass Nat) := [⟨[("a", 1), ("c", 3)], []⟩]

/-- Sample class body: overrides the inherited form `a` and removes the
inherited form `c` with a `None` placeholder. -/
def demoAttrs : List (String × AttrValue Nat) :=
  [("a", AttrValue.form 2), ("c", AttrValue.pynone)]

/-- Sample queryset of three records. -/
def demoQueryset : List Record := [⟨1, "a"⟩, ⟨2, "b"⟩, ⟨3, "c"⟩]

/-- Sample widget search capability that matches every record. -/
def demoSearch : String → Record → Bool := fun _ _ => true

/-- Sample single form named `contact` requiring a field `email`. -/
def demoContactForm : FormClass :=
  ⟨some "contact", fun d => if (dictLookup "email" d).isSome then [] else [("email", ["required"])]⟩

/-- Sample valid POST body for the single-form handler. -/
def demoSingleBody : List (String × FormData) := [("contact", [("email", "x")])]

/-- Sample upload collaborators: a marking signer, fixed `mkstemp`
entropy, and a decodable 4x3 image. -/
def demoEnv : UploadEnv := ⟨fun s => "signed:" ++ s, "ab12cd", some (4, 3)⟩

/-- Sample plain-text upload whose chunks add up to its declared size. -/
def demoTextFile : UploadedFile := ⟨"a.txt", 3, "text/plain", [], [[1, 2], [3]]⟩

/-- Descriptor produced for `demoTextFile`. -/
def demoTextHandle : FileHandle :=
  ⟨"signed:upload_temp/a.ab12cd.txt", "text/plain", [], "a.txt",
   "/media/upload_temp/a.ab12cd.txt", "/static/formset/icons/file-unknown.svg", 3⟩

/-- Sample SVG upload. -/
def demoSvgFile : UploadedFile := ⟨"logo.svg", 2, "image/svg+xml", [], [[7, 8]]⟩

/-- Descriptor produced for `demoSvgFile`. -/
def demoSvgHandle : FileHandle :=
  ⟨"signed:upload_temp/logo.ab12cd.svg", "image/svg+xml", [], "logo.svg",
   "/media/upload_temp/logo.ab12cd.svg", "/media/upload_temp/logo.ab12cd.svg", 2⟩

/-- Sample audio upload. -/
def demoAudioFile : UploadedFile := ⟨"song.mp3", 1, "audio/mpeg", [], [[5]]⟩

/-- Descriptor produced for `demoAudioFile`. -/
def demoAudioHandle : FileHandle :=
  ⟨"signed:upload_temp/song.ab12cd.mp3", "audio/mpeg", [], "song.mp3",
   "/media/upload_temp/song.ab12cd.mp3", "/static/formset/icons/file-audio.svg", 1⟩

/-- Sample upload whose content type has no slash. -/
def demoWeirdFile : UploadedFile := ⟨"x.bin", 1, "weird", [], [[9]]⟩

/-!  Basic lemmas about the dict model. -/

theorem dictLookup_eq_none {α : Type} (k : String) (d : List (String × α)) :
    dictLookup k d = none ↔ k ∉ d.map Prod.fst := by
  induction d with
  | nil => simp [dictLookup]
  | cons p rest ih =>
    simp only [dictLookup, List.map_cons, List.mem_cons]
    by_cases h : p.1 = k
    · subst h
      simp
    · rw [if_neg h, ih]
      constructor
      · intro hni hmem
        rcases hmem with h1 | h2
        · exact h h1.symm
        · exact hni h2
      · intro hno h2
        exact hno (Or.inr h2)

theorem dictLookup_append_none {α : Type} {k : String} {d₁ : List (String × α)}
    (d₂ : List (String × α)) (h : dictLookup k d₁ = none) :
    dictLookup k (d₁ ++ d₂) = dictLookup k d₂ := by
  induction d₁ with
  | nil => simp
  | cons p rest ih =>
    by_cases hp : p.1 = k
    · simp [dictLookup, hp] at h
    · rw [dictLookup, if_neg hp] at h
      rw [List.cons_append, dictLookup, if_neg hp]
      exact ih h

theorem dictUpdate_fresh {α : Type} {d : List (String × α)} {k : String} (v : α)
    (h : dictLookup k d = none) : dictUpdate d k v = d ++ [(k, v)] := by
  induction d with
  | nil => rfl
  | cons p rest ih =>
    by_cases hp : p.1 = k
    · simp [dictLookup, hp] at h
    · rw [dictLookup, if_neg hp] at h
      rw [dictUpdate, if_neg hp, ih h, List.cons_append]

theorem dictLookup_dictUpdate {α : Type} (d : List (String × α)) (k k' : String) (v : α) :
    dictLookup k' (dictUpdate d k v) = if k' = k then some v else dictLookup k' d := by
  induction d with
  | nil =>
    by_cases h : k' = k
    · subst h
      simp [dictUpdate, dictLookup]
    · have h1 : ¬ k = k' := fun hn => h hn.symm
      simp [dictUpdate, dictLookup, h, h1]
  | cons p rest ih =>
    by_cases hp : p.1 = k
    · by_cases h : k' = k
      · subst h
        simp [dictUpdate, dictLookup, hp]
      · have h1 : ¬ k = k' := fun hn => h hn.symm
        have h2 : ¬ p.1 = k' := fun hn => h (hn.symm.trans hp)
        simp [dictUpdate, dictLookup, hp, h, h1, h2]
    · by_cases h : k' = k
      · subst h
        simp [dictUpdate, dictLookup, hp, ih]
      · by_cases hpk : p.1 = k'
        · simp [dictUpdate, dictLookup, hp, h, hpk, ih]
        · simp [dictUpdate, dictLookup, hp, h, hpk, ih]

theorem dictLookup_updateAll_not_mem {α : Type} (u : List (String × α)) :
    ∀ (d : List (String × α)) (k : String), k ∉ u.map Prod.fst →
      dictLookup k (dictUpdateAll d u) = dictLookup k d := by
  induction u with
  | nil =>
    intro d k _
    rfl
  | cons p rest ih =>
    intro d k h
    simp only [List.map_cons, List.mem_cons, not_or] at h
    have hstep : dictUpdateAll d (p :: rest) = dictUpdateAll (dictUpdate d p.1 p.2) rest := rfl
    rw [hstep, ih (dictUpdate d p.1 p.2) k h.2, dictLookup_dictUpdate, if_neg h.1]

theorem dictLookup_updateAll_mem {α : Type} (u : List (String × α)) :
    ∀ (d : List (String × α)) (k : String) (v : α),
      (u.map Prod.fst).Nodup → dictLookup k u = some v →
      dictLookup k (dictUpdateAll d u) = some v := by
  induction u with
  | nil =>
    intro d k v _ h
    simp [dictLookup] at h
  | cons p rest ih =>
    intro d k v hnd h
    simp only [List.map_cons, List.nodup_cons] at hnd
    have hstep : dictUpdateAll d (p :: rest) = dictUpdateAll (dictUpdate d p.1 p.2) rest := rfl
    rw [hstep]
    by_cases hp : p.1 = k
    · rw [dictLookup, if_pos hp] at h
      subst hp
      rw [dictLookup_updateAll_not_mem rest _ _ hnd.1, dictLookup_dictUpdate, if_pos rfl, h]
    · rw [dictLookup, if_neg hp] at h
      exact ih (dictUpdate d p.1 p.2) k v hnd.2 h

theorem dictLookup_filter_ne {α : Type} (d : List (String × α)) (a k : String) :
    dictLookup k (d.filter (fun p => p.1 ≠ a)) = if k = a then none else dictLookup k d := by
  induction d with
  | nil => simp [dictLookup]
  | cons p rest ih =>
    by_cases hpa : p.1 = a
    · rw [List.filter_cons_of_neg (by simp [hpa])]
      rw [ih]
      by_cases hk : k = a
      · rw [if_pos hk, if_pos hk]
      · rw [if_neg hk, if_neg hk, dictLookup,
          if_neg (fun hn : p.1 = k => hk (hn.symm.trans hpa))]
    · rw [List.filter_cons_of_pos (by simp [hpa])]
      by_cases hpk : p.1 = k
      · have hk : ¬ k = a := fun hn => hpa (hpk.trans hn)
        rw [if_neg hk, dictLookup, if_pos hpk, dictLookup, if_pos hpk]
      · rw [dictLookup, if_neg hpk, ih, dictLookup, if_neg hpk]

theorem dictLookup_removeNoneAttr {α : Type} (d : List (String × α)) (a k : String) :
    dictLookup k (removeNoneAttr d a) = if k = a then none else dictLookup k d := by
  unfold removeNoneAttr
  split
  · exact dictLookup_filter_ne d a k
  · next hno =>
    by_cases hk : k = a
    · subst hk
      rw [if_pos rfl]
      exact Option.not_isSome_iff_eq_none.mp hno
    · rw [if_neg hk]

theorem dictLookup_removeFold {α : Type} (ks : List String) :
    ∀ (d : List (String × α)) (k : String),
      dictLookup k (ks.foldl removeNoneAttr d) = if k ∈ ks then none else dictLookup k d := by
  induction ks with
  | nil =>
    intro d k
    simp
  | cons a ks ih =>
    intro d k
    rw [List.foldl_cons, ih, dictLookup_removeNoneAttr]
    by_cases h1 : k ∈ ks
    · simp [h1]
    · by_cases h2 : k = a <;> simp [h1, h2]

theorem eq_of_mem_of_nodup_keys {α : Type} {l : List (String × α)}
    (hnd : (l.map Prod.fst).Nodup) {p q : String × α}
    (hp : p ∈ l) (hq : q ∈ l) (hk : p.1 = q.1) : p = q := by
  induction l with
  | nil => cases hp
  | cons x rest ih =>
    simp only [List.map_cons, List.nodup_cons] at hnd
    rcases List.mem_cons.mp hp with rfl | hp'
    · rcases List.mem_cons.mp hq with rfl | hq'
      · rfl
      · exact absurd (hk ▸ List.mem_map_of_mem Prod.fst hq') hnd.1
    · rcases List.mem_cons.mp hq with rfl | hq'
      · exact absurd (hk ▸ List.mem_map_of_mem Prod.fst hp') hnd.1
      · exact ih hnd.2 hp' hq'


/-!  Claim C7: the single-form validation handler. -/

/-- Claim C7: for every JSON POST to the single-form handler, the form is
bound to the sub-object of the body keyed by the form class's declared
name (default key `__default__` when the class has no name); the response
is 200 with the success URL exactly when the bound form validates, and
otherwise 422 with a body mapping the form name to its per-field
error-message lists. -/
theorem single_form_validation (fc : FormClass) (url : String)
    (body : List (String × FormData)) :
    (handleFormData fc url body = .success url ↔
      (fc.errorsOf (dictGet body (fc.name.getD "__default__") [])).isEmpty = true) ∧
    ((fc.errorsOf (dictGet body (fc.name.getD "__default__") [])).isEmpty = false →
      handleFormData fc url body = .invalid
        [(fc.name.getD "__default__",
          fc.errorsOf (dictGet body (fc.name.getD "__default__") []))]) := by
  unfold handleFormData
  by_cases he : (fc.errorsOf (dictGet body (fc.name.getD "__default__") [])).isEmpty = true
  · simp [he]
  · simp only [Bool.not_eq_true] at he
    simp [he]

/-- Witness for C7 at a concrete valid submission. -/
theorem single_form_validation_witness :
    handleFormData demoContactForm "/done/" demoSingleBody = .success "/done/" :=
  (single_form_validation demoContactForm "/done/" demoSingleBody).1.mpr (by decide)

/-!  Claim C1: the form-collection validation handler. -/

/-- Characterizes the fold inside the collection handler: the final flag
records whether every form validated, and the error dict is the initial
one extended by one entry per invalid form, in declaration order. -/
theorem collection_foldl_eq (body : List (String × FormData))
    (forms : List (String × FormClass)) :
    ∀ (b : Bool) (acc : List (String × FieldErrors)),
      (∀ p ∈ forms, dictLookup p.1 acc = none) →
      (forms.map Prod.fst).Nodup →
      forms.foldl (collectionStep body) (b, acc) =
        (b && forms.all (fun p => (p.2.errorsOf (dictGet body p.1 [])).isEmpty),
         acc ++ collectionErrors forms body) := by
  induction forms with
  | nil =>
    intro b acc _ _
    simp [collectionErrors]
  | cons p rest ih =>
    intro b acc hfresh hnd
    simp only [List.map_cons, List.nodup_cons] at hnd
    rw [List.foldl_cons]
    by_cases he : (p.2.errorsOf (dictGet body p.1 [])).isEmpty = true
    · have he' : p.2.errorsOf (dictGet body p.1 []) = [] := by
        simpa using he
      have hstep : collectionStep body (b, acc) p = (b, acc) := by
        unfold collectionStep
        rw [if_pos he]
      rw [hstep, ih b acc (fun q hq => hfresh q (List.mem_cons_of_mem p hq)) hnd.2]
      simp [collectionErrors, List.filterMap_cons, he, he', List.all_cons]
    · simp only [Bool.not_eq_true] at he
      have hstep : collectionStep body (b, acc) p =
          (false, dictUpdate acc p.1 (p.2.errorsOf (dictGet body p.1 []))) := by
        unfold collectionStep
        rw [if_neg (by simp [he])]
      rw [hstep, dictUpdate_fresh _ (hfresh p (List.mem_cons_self p rest))]
      have hfresh2 : ∀ q ∈ rest,
          dictLookup q.1 (acc ++ [(p.1, p.2.errorsOf (dictGet body p.1 []))]) = none := by
        intro q hq
        rw [dictLookup_append_none _ (hfresh q (List.mem_cons_of_mem p hq))]
        have hne : ¬ p.1 = q.1 := fun hn => hnd.1 (hn ▸ List.mem_map_of_mem Prod.fst hq)
        simp [dictLookup, hne]
      have he' : ¬ p.2.errorsOf (dictGet body p.1 []) = [] := by
        simpa using he
      rw [ih false _ hfresh2 hnd.2]
      simp [collectionErrors, List.filterMap_cons, he, he', List.all_cons, List.append_assoc]

/-- Claim C1: in the form-collection validation handler, every declared
form is validated independently against the sub-object keyed by its name
(a missing sub-object giving empty data); the response is the success
marker exactly when every form is valid, and otherwise a 422 error
mapping with an entry for each invalid form and no entry for any valid
form, so no form is skipped after an earlier failure. -/
theorem collection_validation (forms : List (String × FormClass)) (url : String)
    (body : List (String × FormData)) (hnd : (forms.map Prod.fst).Nodup) :
    (handleFormDataCollection forms url body = .success url ↔
      ∀ p ∈ forms, (p.2.errorsOf (dictGet body p.1 [])).isEmpty = true) ∧
    ((∃ p ∈ forms, (p.2.errorsOf (dictGet body p.1 [])).isEmpty = false) →
      handleFormDataCollection forms url body = .invalid (collectionErrors forms body)) ∧
    (∀ p ∈ forms, (p.2.errorsOf (dictGet body p.1 [])).isEmpty = false →
      (p.1, p.2.errorsOf (dictGet body p.1 [])) ∈ collectionErrors forms body) ∧
    (∀ p ∈ forms, (p.2.errorsOf (dictGet body p.1 [])).isEmpty = true →
      ∀ e, (p.1, e) ∉ collectionErrors forms body) := by
  have hfold := collection_foldl_eq body forms true []
    (fun p _ => rfl) hnd
  rw [Bool.true_and, List.nil_append] at hfold
  have hmem3 : ∀ p ∈ forms, (p.2.errorsOf (dictGet body p.1 [])).isEmpty = false →
      (p.1, p.2.errorsOf (dictGet body p.1 [])) ∈ collectionErrors forms body := by
    intro p hp he
    exact List.mem_filterMap.mpr ⟨p, hp, by rw [if_neg (by simp [he])]⟩
  have hmem4 : ∀ p ∈ forms, (p.2.errorsOf (dictGet body p.1 [])).isEmpty = true →
      ∀ e, (p.1, e) ∉ collectionErrors forms body := by
    intro p hp he e hmem
    rcases List.mem_filterMap.mp hmem with ⟨q, hq, hqe⟩
    by_cases hqv : (q.2.errorsOf (dictGet body q.1 [])).isEmpty = true
    · rw [if_pos hqv] at hqe
      cases hqe
    · rw [if_neg hqv] at hqe
      have hpair := Option.some.inj hqe
      have hk : q.1 = p.1 := (Prod.mk.inj hpair).1
      have : q = p := eq_of_mem_of_nodup_keys hnd hq hp hk
      subst this
      exact hqv he
  have hhandle :
      handleFormDataCollection forms url body =
        if forms.all (fun p => (p.2.errorsOf (dictGet body p.1 [])).isEmpty) = true then
          ValidationResponse.success url
        else .invalid (collectionErrors forms body) := by
    simp only [handleFormDataCollection]
    rw [hfold]
  refine ⟨?_, ?_, hmem3, hmem4⟩
  · rw [hhandle]
    by_cases hall : forms.all (fun p => (p.2.errorsOf (dictGet body p.1 [])).isEmpty) = true
    · rw [if_pos hall]
      exact iff_of_true rfl (List.all_eq_true.mp hall)
    · rw [if_neg hall]
      refine iff_of_false (by simp) (fun hforall => hall (List.all_eq_true.mpr hforall))
  · rintro ⟨p, hp, hinv⟩
    have hnall : ¬ forms.all (fun p => (p.2.errorsOf (dictGet body p.1 [])).isEmpty) = true := by
      intro hall
      have hpt := List.all_eq_true.mp hall p hp
      rw [hinv] at hpt
      exact absurd hpt (by simp)
    rw [hhandle, if_neg hnall]

/-- Witness for C1: `A`'s sub-object is missing (so `A` fails on required
fields), `B` validates; the response is 422 carrying exactly `A`'s
errors. -/
theorem collection_validation_witness :
    handleFormDataCollection demoDeclaredForms "/ok/" demoCollectionBody =
      .invalid (collectionErrors demoDeclaredForms demoCollectionBody) ∧
    ("A", demoFormA.errorsOf (dictGet demoCollectionBody "A" [])) ∈
      collectionErrors demoDeclaredForms demoCollectionBody ∧
    (∀ e, ("B", e) ∉ collectionErrors demoDeclaredForms demoCollectionBody) := by
  have h := collection_validation demoDeclaredForms "/ok/" demoCollectionBody (by decide)
  refine ⟨h.2.1 ⟨("A", demoFormA), List.mem_cons_self _ _, by decide⟩, ?_, ?_⟩
  · exact h.2.2.1 ("A", demoFormA) (List.mem_cons_self _ _) (by decide)
  · intro e
    exact h.2.2.2 ("B", demoFormB)
      (List.mem_cons_of_mem _ (List.mem_cons_self _ _)) (by decide) e

/-!  Claim C2: the metaclass aggregation of declared forms. -/

theorem classFromAttrs_keys_sublist {F : Type} (attrs : List (String × AttrValue F)) :
    ((classFromAttrs attrs).declared_forms.map Prod.fst).Sublist (attrs.map Prod.fst) := by
  induction attrs with
  | nil => simp [classFromAttrs]
  | cons p rest ih =>
    rcases p with ⟨n, v⟩
    cases v with
    | form f =>
      have hstep : (classFromAttrs ((n, AttrValue.form f) :: rest)).declared_forms
          = (n, f) :: (classFromAttrs rest).declared_forms := by
        simp [classFromAttrs, List.filterMap_cons]
      rw [hstep, List.map_cons, List.map_cons]
      exact List.Sublist.cons₂ n ih
    | pynone =>
      have hstep : (classFromAttrs ((n, AttrValue.pynone) :: rest)).declared_forms
          = (classFromAttrs rest).declared_forms := by
        simp [classFromAttrs, List.filterMap_cons]
      rw [hstep, List.map_cons]
      exact List.Sublist.cons n ih
    | other =>
      have hstep : (classFromAttrs ((n, AttrValue.other) :: rest)).declared_forms
          = (classFromAttrs rest).declared_forms := by
        simp [classFromAttrs, List.filterMap_cons]
      rw [hstep, List.map_cons]
      exact List.Sublist.cons n ih

theorem classFromAttrs_lookup_form {F : Type} (attrs : List (String × AttrValue F)) :
    ∀ {n : String} {f : F}, (attrs.map Prod.fst).Nodup → (n, AttrValue.form f) ∈ attrs →
      dictLookup n (classFromAttrs attrs).declared_forms = some f := by
  induction attrs with
  | nil =>
    intro n f _ h
    cases h
  | cons p rest ih =>
    intro n f hnd h
    simp only [List.map_cons, List.nodup_cons] at hnd
    rcases List.mem_cons.mp h with rfl | h'
    · have hstep : (classFromAttrs ((n, AttrValue.form f) :: rest)).declared_forms
          = (n, f) :: (classFromAttrs rest).declared_forms := by
        simp [classFromAttrs, List.filterMap_cons]
      rw [hstep, dictLookup, if_pos rfl]
    · rcases p with ⟨m, v⟩
      have hkn : n ∈ List.map Prod.fst rest := List.mem_map_of_mem Prod.fst h'
      have hmn : ¬ m = n := fun he => hnd.1 (he.symm ▸ hkn)
      cases v with
      | form g =>
        have hstep : (classFromAttrs ((m, AttrValue.form g) :: rest)).declared_forms
            = (m, g) :: (classFromAttrs rest).declared_forms := by
          simp [classFromAttrs, List.filterMap_cons]
        rw [hstep, dictLookup, if_neg hmn]
        exact ih hnd.2 h'
      | pynone =>
        have hstep : (classFromAttrs ((m, AttrValue.pynone) :: rest)).declared_forms
            = (classFromAttrs rest).declared_forms := by
          simp [classFromAttrs, List.filterMap_cons]
        rw [hstep]
        exact ih hnd.2 h'
      | other =>
        have hstep : (classFromAttrs ((m, AttrValue.other) :: rest)).declared_forms
            = (classFromAttrs rest).declared_forms := by
          simp [classFromAttrs, List.filterMap_cons]
        rw [hstep]
        exact ih hnd.2 h'

theorem classFromAttrs_mem_pynone {F : Type} {attrs : List (String × AttrValue F)} {n : String}
    (h : (n, AttrValue.pynone (F := F)) ∈ attrs) :
    n ∈ (classFromAttrs attrs).none_attrs :=
  List.mem_filterMap.mpr ⟨(n, AttrValue.pynone), h, rfl⟩

theorem classFromAttrs_form_not_none {F : Type} {attrs : List (String × AttrValue F)}
    (hnd : (attrs.map Prod.fst).Nodup) {n : String} {f : F}
    (h : (n, AttrValue.form f) ∈ attrs) : n ∉ (classFromAttrs attrs).none_attrs := by
  intro hmem
  rcases List.mem_filterMap.mp hmem with ⟨q, hq, hqe⟩
  rcases q with ⟨m, v⟩
  cases v with
  | form g => exact Option.noConfusion hqe
  | other => exact Option.noConfusion hqe
  | pynone =>
    have hm : m = n := Option.some.inj hqe
    subst hm
    have heq : (m, AttrValue.form f) = (m, AttrValue.pynone (F := F)) :=
      eq_of_mem_of_nodup_keys hnd h hq rfl
    exact AttrValue.noConfusion (Prod.mk.inj heq).2

/-- Claim C2: the declared-forms mapping of a form-collection class is
built by merging the declarations of all classes in (reversed) method
resolution order: a form declared in the class body under a name already
inherited from a base overrides the inherited one, and an attribute
explicitly set to `None` under an inherited form's name removes that
entry from the resulting mapping. -/
theorem declared_forms_merge {F : Type} (base_mro_rev : List (MroClass F))
    (attrs : List (String × AttrValue F)) (hnd : (attrs.map Prod.fst).Nodup) :
    (∀ (n : String) (f : F), (n, AttrValue.form f) ∈ attrs →
      dictLookup n (newClassDeclaredForms base_mro_rev attrs) = some f) ∧
    (∀ n : String, (n, AttrValue.pynone (F := F)) ∈ attrs →
      dictLookup n (newClassDeclaredForms base_mro_rev attrs) = none) := by
  have hexpand : newClassDeclaredForms base_mro_rev attrs =
      processBase (collectDeclaredForms base_mro_rev) (classFromAttrs attrs) := by
    unfold newClassDeclaredForms collectDeclaredForms
    rw [List.foldl_append]
    rfl
  constructor
  · intro n f h
    rw [hexpand]
    unfold processBase
    rw [dictLookup_removeFold, if_neg (classFromAttrs_form_not_none hnd h)]
    exact dictLookup_updateAll_mem _ _ _ _
      (List.Nodup.sublist (classFromAttrs_keys_sublist attrs) hnd)
      (classFromAttrs_lookup_form attrs hnd h)
  · intro n h
    rw [hexpand]
    unfold processBase
    rw [dictLookup_removeFold, if_pos (classFromAttrs_mem_pynone h)]

/-- Witness for C2: a base declares forms `a` and `c`; the class body
overrides `a` and removes `c` with a `None` placeholder. -/
theorem declared_forms_merge_witness :
    dictLookup "a" (newClassDeclaredForms demoBaseMro demoAttrs) = some 2 ∧
    dictLookup "c" (newClassDeclaredForms demoBaseMro demoAttrs) = none :=
  ⟨(declared_forms_merge demoBaseMro demoAttrs (by decide)).1 "a" 2 (by decide),
   (declared_forms_merge demoBaseMro demoAttrs (by decide)).2 "c" (by decide)⟩

/-!  Claim C5: the option-search handler. -/

theorem length_insertDescById (r : Record) (l : List Record) :
    (insertDescById r l).length = l.length + 1 := by
  induction l with
  | nil => rfl
  | cons x xs ih =>
    unfold insertDescById
    split
    · simp
    · simp [ih]

theorem length_sortDescById (l : List Record) : (sortDescById l).length = l.length := by
  induction l with
  | nil => rfl
  | cons x xs ih =>
    unfold sortDescById at ih ⊢
    rw [List.foldr_cons, length_insertDescById, ih, List.length_cons]

/-- Claim C5, amended: the search response reports the full unfiltered
collection size as `total_count`; `items` and `count` are both computed
from the queryset sliced to the widget's configured maximum, so `count`
is the minimum of that cap and the number of matching records (not the
raw number of matching records); for a query matching zero records,
`count = 0`. -/
theorem fetchOptions_counts (queryset : List Record) (search : String → Record → Bool)
    (maxp : Nat) (query : String) :
    (fetchOptions queryset search maxp query).query = query ∧
    (fetchOptions queryset search maxp query).count
      = min maxp (queryset.filter (search query)).length ∧
    (fetchOptions queryset search maxp query).total_count = queryset.length ∧
    (fetchOptions queryset search maxp query).items.length
      = (fetchOptions queryset search maxp query).count ∧
    ((queryset.filter (search query)).length = 0 →
      (fetchOptions queryset search maxp query).count = 0) := by
  refine ⟨rfl, ?_, rfl, ?_, ?_⟩
  · simp [fetchOptions, List.length_take, length_sortDescById]
  · simp [fetchOptions, List.length_map]
  · intro h
    simp [fetchOptions, List.length_take, length_sortDescById, h]

/-- Counterexample for C5 as stated: with three matching records and a
configured maximum of two, the reported `count` is the sliced count 2,
not the number 3 of records matching the filter. -/
theorem fetchOptions_count_counterexample :
    ¬ ((fetchOptions demoQueryset demoSearch 2 "q").count
        = (demoQueryset.filter (demoSearch "q")).length) := by
  decide

/-- Witness for the amended C5 theorem at concrete inputs. -/
theorem fetchOptions_counts_witness :
    (fetchOptions demoQueryset demoSearch 2 "q").total_count = demoQueryset.length :=
  (fetchOptions_counts demoQueryset demoSearch 2 "q").2.2.1

/-!  Upload-handler claims: shared inversion lemma. -/

theorem thumbnailImage_cfg_eq (m1 m2 th tw : Nat) (io : Option (Nat × Nat))
    (image_path image_height : String) :
    thumbnailImage ⟨m1, th, tw⟩ io image_path image_height
      = thumbnailImage ⟨m2, th, tw⟩ io image_path image_height := rfl

/-- Inverts a successful JSON outcome of the upload handler: the name was
non-empty, the integrity assertion passed, the content type split into
exactly two components, the thumbnail branch succeeded, and the returned
descriptor is the literal `file_handle` record. -/
theorem receive_ok_json_inv (env : UploadEnv) (cfg : UploadConfig)
    (file_obj : UploadedFile) (image_height : String) (h : FileHandle)
    (hok : receiveUploadedFile env cfg file_obj image_height = .ok (.json h)) :
    ∃ mime_type sub_type thumbnail_url,
      pySplit '/' file_obj.content_type = [mime_type, sub_type] ∧
      (file_obj.chunks.map List.length).sum = file_obj.size ∧
      (if mime_type = "image" then
         if sub_type = "svg+xml" then
           Except.ok (mediaUrl (tempRelativePath env file_obj))
         else thumbnailImage cfg env.image_open (tempRelativePath env file_obj) image_height
       else fileIconUrl file_obj.content_type) = Except.ok thumbnail_url ∧
      h = { upload_temp_name := env.sign (tempRelativePath env file_obj)
            content_type := file_obj.content_type
            content_type_extra := file_obj.content_type_extra
            name := String.mk (file_obj.name.toList.take cfg.filename_max_length)
            download_url := mediaUrl (tempRelativePath env file_obj)
            thumbnail_url := thumbnail_url
            size := file_obj.size } := by
  simp only [receiveUploadedFile] at hok
  split at hok
  · simp at hok
  · split at hok
    · next hsz =>
      split at hok
      · next mt st heq =>
        split at hok
        · simp at hok
        · next u hthumb =>
          simp only [Except.ok.injEq, UploadResponse.json.injEq] at hok
          exact ⟨mt, st, u, heq, hsz, hthumb, hok.symm⟩
      · simp at hok
    · simp at hok

/-!  Claim C4: descriptor size and the integrity assertion. -/

/-- Claim C4: any descriptor returned by the upload handler has `size`
equal to the byte length actually stored (the sum of the chunk lengths)
and to the declared upload size; when the stored size differs from the
declared size, the handler aborts with the failing assertion instead of
returning a descriptor. -/
theorem upload_size_integrity (env : UploadEnv) (cfg : UploadConfig)
    (file_obj : UploadedFile) (image_height : String) :
    (∀ h, receiveUploadedFile env cfg file_obj image_height = .ok (.json h) →
      h.size = (file_obj.chunks.map List.length).sum ∧ h.size = file_obj.size) ∧
    (file_obj.name ≠ "" → (file_obj.chunks.map List.length).sum ≠ file_obj.size →
      receiveUploadedFile env cfg file_obj image_height = .error .assertionError) := by
  constructor
  · intro h hok
    rcases receive_ok_json_inv env cfg file_obj image_height h hok with
      ⟨mt, st, u, _, hsz, _, hh⟩
    subst hh
    exact ⟨hsz.symm, rfl⟩
  · intro hname hsz
    simp only [receiveUploadedFile]
    rw [if_neg hname, if_neg hsz]

/-- Witness for C4: a concrete matching upload produces the expected
descriptor with the exact source byte length. -/
theorem upload_size_integrity_witness :
    demoTextHandle.size = (demoTextFile.chunks.map List.length).sum ∧
    demoTextHandle.size = demoTextFile.size :=
  (upload_size_integrity demoEnv defaultUploadConfig demoTextFile "").1
    demoTextHandle (by rfl)

/-!  Claim C6: SVG uploads reuse the download URL as thumbnail URL. -/

/-- Claim C6: for an upload whose content type is exactly
`image/svg+xml`, the returned descriptor satisfies
`thumbnail_url = download_url` (no resizing performed). -/
theorem svg_thumbnail_is_download (env : UploadEnv) (cfg : UploadConfig)
    (file_obj : UploadedFile) (image_height : String) (h : FileHandle)
    (hct : file_obj.content_type = "image/svg+xml")
    (hok : receiveUploadedFile env cfg file_obj image_height = .ok (.json h)) :
    h.thumbnail_url = h.download_url := by
  rcases receive_ok_json_inv env cfg file_obj image_height h hok with
    ⟨mt, st, u, hsp, _, hthumb, hh⟩
  rw [hct] at hsp
  rw [show pySplit '/' "image/svg+xml" = ["image", "svg+xml"] from by decide] at hsp
  injection hsp with hm hrest
  injection hrest with hs _
  rw [if_pos hm.symm, if_pos hs.symm] at hthumb
  have hu : u = mediaUrl (tempRelativePath env file_obj) := (Except.ok.inj hthumb).symm
  rw [hh]
  exact hu

/-- Witness for C6 at a concrete SVG upload. -/
theorem svg_thumbnail_witness : demoSvgHandle.thumbnail_url = demoSvgHandle.download_url :=
  svg_thumbnail_is_download demoEnv defaultUploadConfig demoSvgFile "" demoSvgHandle
    rfl (by rfl)

/-!  Claim C8: icon selection for non-image uploads. -/

/-- Claim C8: for an upload whose content type `m/s` has major type `m`
other than `image`, the descriptor's thumbnail URL is the static icon
selected by MIME type: majors `audio`, `font`, `video` map to the icon
named after the major type, `application/zip` and `application/pdf` map
to icons named after the subtype, and every other non-image type maps to
the generic `file-unknown` icon. -/
theorem nonimage_icon_thumbnail (env : UploadEnv) (cfg : UploadConfig)
    (file_obj : UploadedFile) (image_height : String) (h : FileHandle) (m s : String)
    (hsp : pySplit '/' file_obj.content_type = [m, s])
    (him : m ≠ "image")
    (hok : receiveUploadedFile env cfg file_obj image_height = .ok (.json h)) :
    h.thumbnail_url =
      (if m = "audio" ∨ m = "font" ∨ m = "video" then
         staticUrl ("formset/icons/file-" ++ m ++ ".svg")
       else if m = "application" ∧ (s = "zip" ∨ s = "pdf") then
         staticUrl ("formset/icons/file-" ++ s ++ ".svg")
       else staticUrl "formset/icons/file-unknown.svg") := by
  rcases receive_ok_json_inv env cfg file_obj image_height h hok with
    ⟨mt, st, u, hsp', _, hthumb, hh⟩
  rw [hsp] at hsp'
  injection hsp' with hm hrest
  injection hrest with hs _
  subst hm
  subst hs
  rw [if_neg him] at hthumb
  unfold fileIconUrl at hthumb
  rw [hsp] at hthumb
  simp only [] at hthumb
  have hu : u =
      (if m = "audio" ∨ m = "font" ∨ m = "video" then
         staticUrl ("formset/icons/file-" ++ m ++ ".svg")
       else if m = "application" ∧ (s = "zip" ∨ s = "pdf") then
         staticUrl ("formset/icons/file-" ++ s ++ ".svg")
       else staticUrl "formset/icons/file-unknown.svg") := by
    by_cases h1 : m = "audio" ∨ m = "font" ∨ m = "video"
    · rw [if_pos h1] at hthumb
      rw [if_pos h1]
      exact (Except.ok.inj hthumb).symm
    · rw [if_neg h1] at hthumb
      rw [if_neg h1]
      by_cases h2 : m = "application" ∧ (s = "zip" ∨ s = "pdf")
      · rw [if_pos h2] at hthumb
        rw [if_pos h2]
        exact (Except.ok.inj hthumb).symm
      · rw [if_neg h2] at hthumb
        rw [if_neg h2]
        exact (Except.ok.inj hthumb).symm
  rw [hh]
  exact hu

/-- Witness for C8 at a concrete audio upload. -/
theorem nonimage_icon_witness :
    demoAudioHandle.thumbnail_url =
      (if "audio" = "audio" ∨ "audio" = "font" ∨ "audio" = "video" then
         staticUrl ("formset/icons/file-" ++ "audio" ++ ".svg")
       else if "audio" = "application" ∧ ("mpeg" = "zip" ∨ "mpeg" = "pdf") then
         staticUrl ("formset/icons/file-" ++ "mpeg" ++ ".svg")
       else staticUrl "formset/icons/file-unknown.svg") :=
  nonimage_icon_thumbnail demoEnv defaultUploadConfig demoAudioFile "" demoAudioHandle
    "audio" "mpeg" (by decide) (by decide) (by rfl)

/-!  Claim C10: malformed content types raise out of the handler. -/

/-- Claim C10 (implicit): when the uploaded content-type string does not
contain exactly one slash separator, the two-name unpacking raises an
unhandled `ValueError`, instead of producing a 400 response or a fallback
icon (the earlier checks, file truthiness and the size assertion, must
pass to reach the unpacking). -/
theorem malformed_content_type_unpacking (env : UploadEnv) (cfg : UploadConfig)
    (file_obj : UploadedFile) (image_height : String)
    (hname : file_obj.name ≠ "")
    (hsz : (file_obj.chunks.map List.length).sum = file_obj.size)
    (hsp : (pySplit '/' file_obj.content_type).length ≠ 2) :
    receiveUploadedFile env cfg file_obj image_height = .error .valueError := by
  simp only [receiveUploadedFile]
  rw [if_neg hname, if_pos hsz]
  split
  · next mt st heq =>
    refine absurd ?_ hsp
    rw [heq]
    rfl
  · rfl

/-- Witness for C10 at a concrete slash-free content type. -/
theorem malformed_content_type_witness :
    receiveUploadedFile demoEnv defaultUploadConfig demoWeirdFile "" = .error .valueError :=
  malformed_content_type_unpacking demoEnv defaultUploadConfig demoWeirdFile ""
    (by decide) (by decide) (by decide)

/-!  Claim C9: the signed temp name is independent of display-name
truncation. -/

/-- Claim C9: the signed relative temp name in the upload outcome does
not depend on the configured maximum display-name length: two runs that
differ only in `filename_max_length` produce the same `upload_temp_name`
(and the same outcome shape). -/
theorem upload_temp_name_truncation_independent (env : UploadEnv) (m1 m2 th tw : Nat)
    (file_obj : UploadedFile) (image_height : String) :
    responseTempName (receiveUploadedFile env ⟨m1, th, tw⟩ file_obj image_height) =
    responseTempName (receiveUploadedFile env ⟨m2, th, tw⟩ file_obj image_height) := by
  simp only [receiveUploadedFile]
  by_cases hname : file_obj.name = ""
  · rw [if_pos hname, if_pos hname]
  · rw [if_neg hname, if_neg hname]
    by_cases hsz : (file_obj.chunks.map List.length).sum = file_obj.size
    · rw [if_pos hsz, if_pos hsz]
      cases hspc : pySplit '/' file_obj.content_type with
      | nil => rfl
      | cons a tl =>
        cases tl with
        | nil => rfl
        | cons b tl2 =>
          cases tl2 with
          | cons c tl3 => rfl
          | nil =>
            rw [thumbnailImage_cfg_eq m1 m2 th tw]
            split
            · split <;> rfl
            · rename_i hfalse
              exact absurd rfl (hfalse a b)
    · rw [if_neg hsz, if_neg hsz]

/-!  Claim C3: the thumbnailer fallback behaviour. -/

/-- Witness for C9 at concrete truncation limits 5 and 50. -/
theorem truncation_independent_witness :
    responseTempName (receiveUploadedFile demoEnv ⟨5, 200, 400⟩ demoTextFile "") =
    responseTempName (receiveUploadedFile demoEnv ⟨50, 200, 400⟩ demoTextFile "") :=
  upload_temp_name_truncation_independent demoEnv 5 50 200 400 demoTextFile ""

end Formset
